import Mathlib

/-!
Verification of the llm-debugger-server response-resolution and
provider-translation engine: a shallow embedding of the model registry
(`model-config.js`), the behavior resolver usage calculator
(`response.js` / `buildUsage`), the token counters (`utils.js`), the
provider translators (`translator.js`) and the simulated-error gate
(`multipart.js`), with theorems settling the spec claims.
-/

namespace LlmDebugger

/-- JSON-compatible JavaScript values, including `undefined`, as they occur
in the parsed configuration and request bodies. Numbers are modelled as
rationals. -/
inductive JVal where
  | null
  | undefined
  | bool (b : Bool)
  | num (q : Rat)
  | str (s : String)
  | arr (xs : List JVal)
  | obj (fields : List (String × JVal))
deriving Repr

/-- JS truthiness: `null`, `undefined`, `false`, `0`, `''` are falsy;
objects and arrays (even empty ones) are truthy. -/
def jsTruthy : JVal → Bool
  | .null => false
  | .undefined => false
  | .bool b => b
  | .num q => q != 0
  | .str s => s != ""
  | .arr _ => true
  | .obj _ => true

/-- `typeof v === 'object'` (true for objects, arrays and `null`). -/
def jsTypeofIsObject : JVal → Bool
  | .obj _ => true
  | .arr _ => true
  | .null => true
  | _ => false

/-- `Array.isArray(v)`. -/
def jsIsArray : JVal → Bool
  | .arr _ => true
  | _ => false

/-- `typeof v === 'string'`. -/
def jsIsString : JVal → Bool
  | .str _ => true
  | _ => false

/-- Keep the first occurrence of each key (JS objects have unique keys;
this makes the embedding total on arbitrary field lists). -/
def dedupKeys (seen : List String) : List String → List String
  | [] => []
  | k :: rest =>
    if k ∈ seen then dedupKeys seen rest else k :: dedupKeys (k :: seen) rest

/-- `Object.keys(v)`: field names for objects, stringified indices for
arrays, `[]` otherwise. -/
def jsKeys : JVal → List String
  | .obj fs => dedupKeys [] (fs.map Prod.fst)
  | .arr xs => (List.range xs.length).map toString
  | _ => []

/-- Property read `v[k]` on an object or array; `undefined` when the key is
absent or the value is not an object (mirrors optional chaining `v?.[k]`). -/
def jsGet : JVal → String → JVal
  | .obj fs, k => ((fs.find? (fun p => p.1 == k)).map Prod.snd).getD .undefined
  | .arr xs, k => ((xs.enum.find? (fun p => toString p.1 == k)).map Prod.snd).getD .undefined
  | _, _ => .undefined

/-- `k in v` for objects and arrays (callers guard non-objects; see the
throwing variant below for the unguarded semantics). -/
def jsHasKey (v : JVal) (k : String) : Bool :=
  k ∈ jsKeys v

/-- `Object.entries(v)`. -/
def jsEntries : JVal → List (String × JVal)
  | .obj fs => (dedupKeys [] (fs.map Prod.fst)).map (fun k => (k, jsGet (.obj fs) k))
  | .arr xs => xs.enum.map (fun p => (toString p.1, p.2))
  | _ => []

/-- `toArray` from utils.js: `undefined`/`null` become `[]`, arrays stay,
anything else is wrapped in a singleton. -/
def jsToArray : JVal → List JVal
  | .null => []
  | .undefined => []
  | .arr xs => xs
  | v => [v]

/-- JS `Set.add`: append if absent, preserving insertion order. -/
def setAdd (s : List String) (x : String) : List String :=
  if x ∈ s then s else s ++ [x]

/-- JS `Map.set`: overwrite in place if the key exists, else append. -/
def mapSet {α : Type} (m : List (String × α)) (k : String) (v : α) : List (String × α) :=
  if m.any (fun p => p.1 == k) then
    m.map (fun p => if p.1 == k then (k, v) else p)
  else m ++ [(k, v)]

/-- JS `Map.get` (keys are unique in every map this code builds). -/
def mapGet {α : Type} (m : List (String × α)) (k : String) : Option α :=
  (m.find? (fun p => p.1 == k)).map Prod.snd

/-! ## Model registry (model-config.js) -/

/-- One trigger model: ordered `{match, response}` entries, an optional
default entry (its recorded response), and an optional parent link. -/
structure TriggerModel where
  entries : List (String × JVal)
  defaultEntry : Option JVal
  parent : Option String
deriving Repr

/-- A behavior model entry: the raw `behavior`/`script`/`rules` values. -/
structure BehaviorEntry where
  behavior : JVal
  script : JVal
  rules : JVal
deriving Repr

/-- The parsed model registry. -/
structure ModelRegistry where
  triggerModels : List (String × TriggerModel)
  behaviorModels : List (String × BehaviorEntry)
  baseModels : List String
deriving Repr

def emptyRegistry : ModelRegistry := ⟨[], [], []⟩

/-- Accumulator state for `parseTriggerList`: the mutable locals
`entries`, `defaultEntry`, `parent` plus the shared `baseModels` set. -/
structure ParseSt where
  entries : List (String × JVal)
  defaultEntry : Option JVal
  parent : Option String
  bases : List String
deriving Repr

/-- One iteration of the `parseTriggerList` loop of model-config.js. -/
def parseStep (st : ParseSt) (item : JVal) : ParseSt :=
  if !(jsTruthy item && jsTypeofIsObject item) then st
  else if jsHasKey item "_inherit" && st.parent.isNone then
    match jsGet item "_inherit" with
    | .str s => if s != "" then { st with parent := some s, bases := setAdd st.bases s } else st
    | _ => st
  else if jsHasKey item "_default" && st.defaultEntry.isNone then
    { st with defaultEntry := some (jsGet item "_default") }
  else
    match jsKeys item with
    | [k] => { st with entries := st.entries ++ [(k, jsGet item k)] }
    | _ => st

/-- `parseTriggerList(list, baseModels)`: fold the loop over
`toArray(list)`, returning the trigger model and the updated base set. -/
def parseTriggerList (v : JVal) (bases : List String) : TriggerModel × List String :=
  let st := (jsToArray v).foldl parseStep ⟨[], none, none, bases⟩
  (⟨st.entries, st.defaultEntry, st.parent⟩, st.bases)

/-- One iteration of the `normalizeModels` loop over `Object.entries`. -/
def normStep (st : ModelRegistry) (kv : String × JVal) : ModelRegistry :=
  let modelName := kv.1
  let modelValue := kv.2
  if jsIsArray modelValue then
    let p := parseTriggerList modelValue st.baseModels
    { st with triggerModels := mapSet st.triggerModels modelName p.1, baseModels := p.2 }
  else if jsIsString modelValue then
    let p := parseTriggerList (.arr [.obj [("_default", modelValue)]]) st.baseModels
    { st with triggerModels := mapSet st.triggerModels modelName p.1, baseModels := p.2 }
  else if jsTruthy modelValue && jsTypeofIsObject modelValue then
    if jsIsArray (jsGet modelValue "triggers") then
      let p := parseTriggerList (jsGet modelValue "triggers") st.baseModels
      { st with triggerModels := mapSet st.triggerModels modelName p.1, baseModels := p.2 }
    else if jsTruthy (jsGet modelValue "behavior") || jsTruthy (jsGet modelValue "script")
        || jsTruthy (jsGet modelValue "rules") then
      let be := BehaviorEntry.mk (jsGet modelValue "behavior") (jsGet modelValue "script")
        (jsGet modelValue "rules")
      { st with behaviorModels := mapSet st.behaviorModels modelName be }
    else if jsHasKey modelValue "_default" then
      let p := parseTriggerList (.arr [.obj [("_default", jsGet modelValue "_default")]]) st.baseModels
      { st with triggerModels := mapSet st.triggerModels modelName p.1, baseModels := p.2 }
    else st
  else st

/-- `normalizeModels(modelsConfig = {})` from model-config.js. -/
def normalizeModels (v : JVal) : ModelRegistry :=
  let mc := match v with | .undefined => JVal.obj [] | other => other
  if !(jsTruthy mc && jsTypeofIsObject mc) then emptyRegistry
  else (jsEntries mc).foldl normStep emptyRegistry

/-- Result record of `resolveTriggerResponse`. -/
structure TriggerResult where
  response : JVal
  model : String
  isDefault : Bool
deriving Repr

/-- The `resolveTriggerResponse` while-loop. `fuel` bounds the number of
iterations; `triggerFuel` below always suffices (proved in the C2
theorem), so the function computes exactly what the JS loop computes. -/
def resolveTriggerGo (registry : ModelRegistry) (userMessage : String) :
    Nat → Option String → List String → Option TriggerResult → Option TriggerResult
  | 0, _, _, fallback => fallback
  | fuel + 1, current, visited, fallback =>
    match current with
    | none => fallback
    | some name =>
      if name = "" ∨ name ∈ visited then fallback
      else
        match mapGet registry.triggerModels name with
        | none => fallback
        | some model =>
          match model.entries.find? (fun e => e.1 == userMessage) with
          | some e => some ⟨e.2, name, false⟩
          | none =>
            resolveTriggerGo registry userMessage fuel model.parent (name :: visited)
              (if fallback.isNone then model.defaultEntry.map (fun r => ⟨r, name, true⟩)
               else fallback)

/-- Enough fuel for the walk to run to completion on any chain. -/
def triggerFuel (registry : ModelRegistry) : Nat :=
  registry.triggerModels.length + 1

/-- `resolveTriggerResponse(modelName, userMessage, registry)`. -/
def resolveTriggerResponse (modelName userMessage : String) (registry : ModelRegistry) :
    Option TriggerResult :=
  resolveTriggerGo registry userMessage (triggerFuel registry) (some modelName) [] none

/-- The sequence of model names the walk visits and finds in the registry
(the inheritance chain actually traversed). -/
def walkChainGo (registry : ModelRegistry) :
    Nat → Option String → List String → List String
  | 0, _, _ => []
  | fuel + 1, current, visited =>
    match current with
    | none => []
    | some name =>
      if name = "" ∨ name ∈ visited then []
      else
        match mapGet registry.triggerModels name with
        | none => []
        | some model => name :: walkChainGo registry fuel model.parent (name :: visited)

/-- The chain walked when resolving `name`. -/
def walkChain (registry : ModelRegistry) (name : String) : List String :=
  walkChainGo registry (triggerFuel registry) (some name) []

/-- Whether model `m` records an entry whose match equals `msg` exactly. -/
def hasExactMatch (registry : ModelRegistry) (m msg : String) : Bool :=
  ((mapGet registry.triggerModels m).map
    (fun mo => mo.entries.any (fun e => e.1 == msg))).getD false

/-- Specification-side: the first exact match along a chain of model
names, as the spec words it ("the first exact match found while walking
the chain"). -/
def firstExactInChain (registry : ModelRegistry) (msg : String) :
    List String → Option (String × JVal)
  | [] => none
  | m :: rest =>
    match (mapGet registry.triggerModels m).bind
        (fun mo => mo.entries.find? (fun e => e.1 == msg)) with
    | some e => some (m, e.2)
    | none => firstExactInChain registry msg rest

/-- Specification-side: the first recorded default along a chain ("the
nearest model in the chain that had one"). -/
def firstDefaultInChain (registry : ModelRegistry) :
    List String → Option TriggerResult
  | [] => none
  | m :: rest =>
    match (mapGet registry.triggerModels m).bind (fun mo => mo.defaultEntry) with
    | some r => some ⟨r, m, true⟩
    | none => firstDefaultInChain registry rest

/-- Number of registry keys not yet visited (walk progress measure). -/
def unvisitedCount (registry : ModelRegistry) (visited : List String) : Nat :=
  ((registry.triggerModels.map Prod.fst).filter (fun k => !visited.contains k)).length

/-- `name.startsWith('_')` (first character is an underscore; modelled on
the character list so that it computes by reduction). -/
def startsWithUnderscore (n : String) : Bool :=
  match n.data with
  | [] => false
  | c :: _ => c == '_'

/-- `listModelNames(registry, {excludeBaseModels = true})`. -/
def listModelNames (registry : ModelRegistry) (excludeBaseModels : Bool := true) :
    List String :=
  let names := (registry.triggerModels.map Prod.fst).foldl
    (fun acc n => if startsWithUnderscore n then acc else setAdd acc n) []
  let names := (registry.behaviorModels.map Prod.fst).foldl
    (fun acc n => if startsWithUnderscore n then acc else setAdd acc n) names
  if excludeBaseModels then names.filter (fun n => !registry.baseModels.contains n)
  else names

/-! ## Exception-aware re-embedding of `normalizeModels` (for totality)

JavaScript primitives that can throw (`k in v` on a non-object, property
access on `null`/`undefined`, `Object.entries(null)`) are modelled in the
`Except` monad; the pure definitions above are proved equal to this
embedding, which shows `normalizeModels` never raises on any input. -/

/-- `k in v`: throws a TypeError unless `v` is an object or array. -/
def jsInE (k : String) (v : JVal) : Except String Bool :=
  match v with
  | .obj _ => .ok (jsHasKey v k)
  | .arr _ => .ok (jsHasKey v k)
  | _ => .error "TypeError: cannot use in operator"

/-- Property access `v[k]`: throws on `null`/`undefined`, yields
`undefined` on other primitives. -/
def jsGetE (v : JVal) (k : String) : Except String JVal :=
  match v with
  | .null => .error "TypeError: cannot read properties of null"
  | .undefined => .error "TypeError: cannot read properties of undefined"
  | other => .ok (jsGet other k)

/-- `Object.keys(v)`: throws on `null`/`undefined`. -/
def jsKeysE (v : JVal) : Except String (List String) :=
  match v with
  | .null => .error "TypeError"
  | .undefined => .error "TypeError"
  | other => .ok (jsKeys other)

/-- `Object.entries(v)`: throws on `null`/`undefined`; strings enumerate
their characters, other primitives have no entries. -/
def jsEntriesE (v : JVal) : Except String (List (String × JVal)) :=
  match v with
  | .null => .error "TypeError"
  | .undefined => .error "TypeError"
  | .str s => .ok (s.toList.enum.map (fun p => (toString p.1, .str (String.singleton p.2))))
  | other => .ok (jsEntries other)

/-- One `parseTriggerList` iteration with explicit throwing primitives. -/
def parseStepE (st : ParseSt) (item : JVal) : Except String ParseSt := do
  if !(jsTruthy item && jsTypeofIsObject item) then
    return st
  else
    let hasInherit ← jsInE "_inherit" item
    if hasInherit && st.parent.isNone then
      let p ← jsGetE item "_inherit"
      match p with
      | .str s =>
        if s != "" then return { st with parent := some s, bases := setAdd st.bases s }
        else return st
      | _ => return st
    else
      let hasDefault ← jsInE "_default" item
      if hasDefault && st.defaultEntry.isNone then
        let d ← jsGetE item "_default"
        return { st with defaultEntry := some d }
      else
        let ks ← jsKeysE item
        match ks with
        | [k] =>
          let resp ← jsGetE item k
          return { st with entries := st.entries ++ [(k, resp)] }
        | _ => return st

/-- `parseTriggerList` with explicit throwing primitives. -/
def parseTriggerListE (v : JVal) (bases : List String) :
    Except String (TriggerModel × List String) := do
  let st ← (jsToArray v).foldlM parseStepE ⟨[], none, none, bases⟩
  return (⟨st.entries, st.defaultEntry, st.parent⟩, st.bases)

/-- One `normalizeModels` iteration with explicit throwing primitives. -/
def normStepE (st : ModelRegistry) (kv : String × JVal) : Except String ModelRegistry := do
  let modelName := kv.1
  let modelValue := kv.2
  if jsIsArray modelValue then
    let p ← parseTriggerListE modelValue st.baseModels
    return { st with triggerModels := mapSet st.triggerModels modelName p.1, baseModels := p.2 }
  else if jsIsString modelValue then
    let p ← parseTriggerListE (.arr [.obj [("_default", modelValue)]]) st.baseModels
    return { st with triggerModels := mapSet st.triggerModels modelName p.1, baseModels := p.2 }
  else if jsTruthy modelValue && jsTypeofIsObject modelValue then
    let triggersVal ← jsGetE modelValue "triggers"
    if jsIsArray triggersVal then
      let p ← parseTriggerListE triggersVal st.baseModels
      return { st with triggerModels := mapSet st.triggerModels modelName p.1, baseModels := p.2 }
    else
      let behaviorVal ← jsGetE modelValue "behavior"
      let scriptVal ← jsGetE modelValue "script"
      let rulesVal ← jsGetE modelValue "rules"
      if jsTruthy behaviorVal || jsTruthy scriptVal || jsTruthy rulesVal then
        let be := BehaviorEntry.mk behaviorVal scriptVal rulesVal
        return { st with behaviorModels := mapSet st.behaviorModels modelName be }
      else
        let hasDefault ← jsInE "_default" modelValue
        if hasDefault then
          let d ← jsGetE modelValue "_default"
          let p ← parseTriggerListE (.arr [.obj [("_default", d)]]) st.baseModels
          return { st with triggerModels := mapSet st.triggerModels modelName p.1,
                           baseModels := p.2 }
        else return st
  else return st

/-- `normalizeModels` with explicit throwing primitives. -/
def normalizeModelsE (v : JVal) : Except String ModelRegistry := do
  let mc := match v with | .undefined => JVal.obj [] | other => other
  if !(jsTruthy mc && jsTypeofIsObject mc) then return emptyRegistry
  else
    let entries ← jsEntriesE mc
    entries.foldlM normStepE emptyRegistry

/-! ## Token counting (utils.js) and the usage calculator (response.js) -/

/-- Token counting strategy. -/
inductive Strategy where
  | chars
  | words
deriving Repr, DecidableEq

/-- Leading and trailing whitespace removed (`String.trim`, on the
character list so that it computes by reduction). -/
def trimChars (cs : List Char) : List Char :=
  ((cs.dropWhile Char.isWhitespace).reverse.dropWhile Char.isWhitespace).reverse

/-- Number of maximal non-whitespace runs; equals
`text.trim().split(/\s+/).length` for text with a non-empty trim. -/
def wordRunsGo : List Char → Bool → Nat
  | [], _ => 0
  | c :: rest, inWord =>
    if c.isWhitespace then wordRunsGo rest false
    else (if inWord then 0 else 1) + wordRunsGo rest true

/-- `countTokens(input, strategy)`: 0 for a falsy input; `words` counts
whitespace-delimited tokens of the trimmed text; `chars` is the length. -/
def countTokens (input : Option String) (strategy : Strategy) : Nat :=
  match input with
  | none => 0
  | some s =>
    if s = "" then 0
    else
      match strategy with
      | .words =>
        let trimmed := trimChars s.data
        if trimmed = [] then 0
        else wordRunsGo trimmed false
      | .chars => s.data.length

/-- `combineTokens(values, strategy)` on an array of values: the sum of the
individual `countTokens` results (the scalar branch of `combineTokens` is
`countTokens` itself). -/
def combineTokens (values : List (Option String)) (strategy : Strategy) : Nat :=
  values.foldl (fun sum v => sum + countTokens v strategy) 0

/-- `usage` overrides attached to a `message`/`echo` directive. -/
structure UsageOverrides where
  input : Option Int
  output : Option Int
  reasoning : Option Int
  cache_read : Option Int
  cache_creation : Option Int
deriving Repr

/-- Canonical usage record; `none` means the field is absent (omitted on
the wire), mirroring optional JS object fields. -/
structure Usage where
  input : Option Int
  output : Option Int
  reasoning : Option Int
  cache_read : Option Int
  cache_creation : Option Int
deriving Repr

/-- The response fields `buildUsage` reads. -/
structure ResponseDraft where
  content : Option String
  reasoning : Option String
deriving Repr

/-- `buildUsage({response, inputText, usageOverrides, tokenCounting})`
from response.js. -/
def buildUsage (response : ResponseDraft) (inputText : Option String)
    (usageOverrides : Option UsageOverrides) (tokenCounting : Strategy) : Usage :=
  let inputTokens := countTokens inputText tokenCounting
  let outputTokens := combineTokens [response.content, response.reasoning] tokenCounting
  let usageInput : Int :=
    match usageOverrides.bind (fun o => o.input) with
    | some o => o
    | none => (inputTokens : Int)
  let usageOutput : Int :=
    match usageOverrides.bind (fun o => o.output) with
    | some o => o
    | none => (outputTokens : Int)
  let usageReasoning : Option Int :=
    match usageOverrides.bind (fun o => o.reasoning) with
    | some o => some o
    | none =>
      if (match response.reasoning with | some s => s != "" | none => false) then
        some ((countTokens response.reasoning tokenCounting : Nat) : Int)
      else none
  { input := some usageInput
    output := some usageOutput
    reasoning := usageReasoning
    cache_read := usageOverrides.bind (fun o => o.cache_read)
    cache_creation := usageOverrides.bind (fun o => o.cache_creation) }

/-! ## Translator (translator.js) -/

/-- JS number formatting (`String(n)` / `JSON.stringify(n)`), abstracted:
integers render exactly; non-integer rationals use the `Rat` printer
(JS float formatting is not modelled; no theorem inspects these strings). -/
def jsNumToString (q : Rat) : String :=
  if q.den = 1 then toString q.num else toString q

/-- Minimal JSON string escaping. -/
def jsonEscape (s : String) : String :=
  s.foldl (fun acc c =>
    if c = '"' then acc ++ "\\\""
    else if c = '\\' then acc ++ "\\\\"
    else if c = '\n' then acc ++ "\\n"
    else if c = '\t' then acc ++ "\\t"
    else acc ++ String.singleton c) ""

/-- Is the value `undefined`? -/
def jsIsUndefined : JVal → Bool
  | .undefined => true
  | _ => false

/-- `JSON.stringify` (object fields with `undefined` values are dropped,
`undefined` array elements serialize as `null`). -/
def jsonStringify : JVal → String
  | .null => "null"
  | .undefined => "null"
  | .bool b => cond b "true" "false"
  | .num q => jsNumToString q
  | .str s => "\"" ++ jsonEscape s ++ "\""
  | .arr xs =>
    "[" ++ String.intercalate "," (xs.attach.map (fun x => jsonStringify x.1)) ++ "]"
  | .obj fs =>
    let rendered := (fs.filter (fun p => !jsIsUndefined p.2)).attach.map
      (fun p => "\"" ++ jsonEscape p.1.1 ++ "\":" ++ jsonStringify p.1.2)
    "\x7b" ++ String.intercalate "," rendered ++ "\x7d"
decreasing_by
  · rename_i xs
    have := List.sizeOf_lt_of_mem x.2
    simp only [JVal.arr.sizeOf_spec]
    omega
  · rename_i fs
    have hm : p.1 ∈ fs := List.mem_of_mem_filter p.2
    have h1 := List.sizeOf_lt_of_mem hm
    have h2 : sizeOf (p.1).2 < sizeOf p.1 := by
      obtain ⟨⟨a, b⟩, hp⟩ := p
      simp
    simp only [JVal.obj.sizeOf_spec]
    omega

/-- A canonical tool call. -/
structure ToolCall where
  id : Option String
  name : String
  arguments : Option JVal
deriving Repr

/-- The wire shape of an OpenAI tool call `function` payload. -/
structure OpenAIFunctionPayload where
  name : String
  arguments : String
deriving Repr, DecidableEq

/-- OpenAI wire tool call. -/
structure OpenAIToolCall where
  id : String
  type : String
  function : OpenAIFunctionPayload
deriving Repr, DecidableEq

/-- `toOpenAIToolCalls`: `gen` supplies the generated id used when
`call.id` is falsy (`generateId('call')` is an external primitive). -/
def toOpenAIToolCalls (gen : Nat → String) (toolCalls : List ToolCall) : List OpenAIToolCall :=
  toolCalls.enum.map (fun p =>
    { id := match p.2.id with
        | some s => if s != "" then s else gen p.1
        | none => gen p.1
      type := "function"
      function := ⟨p.2.name, jsonStringify (p.2.arguments.getD (.obj []))⟩ })

/-- Canonical response record (provider-agnostic). -/
structure CanonicalResponse where
  content : Option String
  reasoning : Option String
  tool_calls : Option (List ToolCall)
  usage : Usage
deriving Repr

/-- `prompt_tokens_details` / `input_tokens_details` wrapper. -/
structure PromptTokensDetails where
  cached_tokens : Int
deriving Repr, DecidableEq

/-- `completion_tokens_details` / `output_tokens_details` wrapper. -/
structure CompletionTokensDetails where
  reasoning_tokens : Int
deriving Repr, DecidableEq

/-- OpenAI chat `usage` object. -/
structure OpenAIChatUsage where
  prompt_tokens : Int
  completion_tokens : Int
  total_tokens : Int
  prompt_tokens_details : Option PromptTokensDetails
  completion_tokens_details : Option CompletionTokensDetails
deriving Repr, DecidableEq

/-- OpenAI responses `usage` object. -/
structure OpenAIResponsesUsage where
  input_tokens : Int
  output_tokens : Int
  total_tokens : Int
  input_tokens_details : Option PromptTokensDetails
  output_tokens_details : Option CompletionTokensDetails
deriving Repr, DecidableEq

/-- Anthropic `usage` object. -/
structure AnthropicUsage where
  input_tokens : Int
  output_tokens : Int
  cache_read_input_tokens : Option Int
  cache_creation_input_tokens : Option Int
deriving Repr, DecidableEq

/-- Gemini `usageMetadata` object. -/
structure GeminiUsageMetadata where
  promptTokenCount : Int
  candidatesTokenCount : Int
  totalTokenCount : Int
  cachedContentTokenCount : Option Int
deriving Repr, DecidableEq

/-- `mapUsageToOpenAIChat(usage)`. -/
def mapUsageToOpenAIChat (usage : Usage) : OpenAIChatUsage :=
  let prompt_tokens := usage.input.getD 0
  let completion_tokens := usage.output.getD 0
  { prompt_tokens := prompt_tokens
    completion_tokens := completion_tokens
    total_tokens := prompt_tokens + completion_tokens
    prompt_tokens_details := usage.cache_read.map (fun c => ⟨c⟩)
    completion_tokens_details := usage.reasoning.map (fun r => ⟨r⟩) }

/-- `mapUsageToOpenAIResponses(usage)`. -/
def mapUsageToOpenAIResponses (usage : Usage) : OpenAIResponsesUsage :=
  let input_tokens := usage.input.getD 0
  let output_tokens := usage.output.getD 0
  { input_tokens := input_tokens
    output_tokens := output_tokens
    total_tokens := input_tokens + output_tokens
    input_tokens_details := usage.cache_read.map (fun c => ⟨c⟩)
    output_tokens_details := usage.reasoning.map (fun r => ⟨r⟩) }

/-- `mapUsageToAnthropic(usage)`. -/
def mapUsageToAnthropic (usage : Usage) : AnthropicUsage :=
  { input_tokens := usage.input.getD 0
    output_tokens := usage.output.getD 0
    cache_read_input_tokens := usage.cache_read
    cache_creation_input_tokens := usage.cache_creation }

/-- `mapUsageToGemini(usage)`. -/
def mapUsageToGemini (usage : Usage) : GeminiUsageMetadata :=
  let promptTokenCount := usage.input.getD 0
  let candidatesTokenCount := usage.output.getD 0
  { promptTokenCount := promptTokenCount
    candidatesTokenCount := candidatesTokenCount
    totalTokenCount := promptTokenCount + candidatesTokenCount
    cachedContentTokenCount := usage.cache_read }

/-- Truthiness of an optional string field. -/
def jsTruthyOS : Option String → Bool
  | some s => s != ""
  | none => false

/-- A streamed chat chunk delta. -/
structure ChatDelta where
  role : Option String
  content : Option String
  reasoning_content : Option String
  tool_calls : Option (List OpenAIToolCall)
deriving Repr, DecidableEq

/-- The empty delta of the finish chunk. -/
def emptyDelta : ChatDelta := ⟨none, none, none, none⟩

/-- One element of a chunk's `choices`. -/
structure ChatChoice where
  index : Nat
  delta : ChatDelta
  finish_reason : Option String
deriving Repr, DecidableEq

/-- The `data` object of one `chat.completion.chunk` event. -/
structure ChatChunkData where
  id : String
  object : String
  created : Int
  model : String
  choices : List ChatChoice
  usage : Option OpenAIChatUsage
deriving Repr, DecidableEq

/-- One OpenAI chat stream event: a chunk object or the `[DONE]` literal. -/
inductive ChatStreamEvent where
  | chunk (d : ChatChunkData)
  | done
deriving Repr, DecidableEq

/-- `buildOpenAIChatStreamEvents({response, model, includeUsage})`; `id`
and `created` stand for `generateId('chatcmpl')` and `nowSeconds()`, and
`gen` for ids of tool calls that lack one. -/
def buildOpenAIChatStreamEvents (response : CanonicalResponse) (model : String)
    (includeUsage : Bool) (id : String) (created : Int) (gen : Nat → String) :
    List ChatStreamEvent :=
  let toolCalls := response.tool_calls.map (toOpenAIToolCalls gen)
  let delta : ChatDelta :=
    { role := some "assistant"
      content := if jsTruthyOS response.content then response.content else none
      reasoning_content := if jsTruthyOS response.reasoning then response.reasoning else none
      tool_calls := toolCalls }
  let events := [
    ChatStreamEvent.chunk ⟨id, "chat.completion.chunk", created, model,
      [⟨0, delta, none⟩], none⟩,
    ChatStreamEvent.chunk ⟨id, "chat.completion.chunk", created, model,
      [⟨0, emptyDelta, some "stop"⟩], none⟩]
  let events := if includeUsage then
      events ++ [ChatStreamEvent.chunk ⟨id, "chat.completion.chunk", created, model,
        [], some (mapUsageToOpenAIChat response.usage)⟩]
    else events
  events ++ [ChatStreamEvent.done]

/-! ## Simulated errors (multipart.js) -/

/-- Is the value `null` or `undefined` (the `??` guard)? -/
def jsNullish : JVal → Bool
  | .null => true
  | .undefined => true
  | _ => false

/-- Is the value the empty string? -/
def jsIsEmptyStr : JVal → Bool
  | .str "" => true
  | _ => false

/-- JS `a || b`. -/
def jsOr (a b : JVal) : JVal :=
  if jsTruthy a then a else b

/-- `normalizeHeaderValue(value)`: first element of an array, else the
value itself. -/
def normalizeHeaderValue : JVal → JVal
  | .arr xs => (xs.head?).getD .undefined
  | v => v

/-- `String(v)` coercion (array elements that are nullish render as
empty; number formatting as in `jsNumToString`). -/
def jsToStr : JVal → String
  | .null => "null"
  | .undefined => "undefined"
  | .bool b => cond b "true" "false"
  | .num q => jsNumToString q
  | .str s => s
  | .arr xs =>
    String.intercalate "," (xs.attach.map (fun x =>
      if jsNullish x.1 then "" else jsToStr x.1))
  | .obj _ => "[object Object]"
decreasing_by
  have := List.sizeOf_lt_of_mem x.2
  simp only [JVal.arr.sizeOf_spec]
  omega

/-- Numeric value of a run of decimal digits. -/
def digitsVal (ds : List Char) : Nat :=
  ds.foldl (fun n c => n * 10 + (c.toNat - '0'.toNat)) 0

/-- `Number.parseInt(s, 10)`: skip leading whitespace, optional sign,
then the longest decimal digit prefix; `none` when there is none (NaN). -/
def jsParseIntPrefix (s : String) : Option Int :=
  let cs := s.data.dropWhile (fun c => c.isWhitespace)
  let signAndRest : Int × List Char :=
    match cs with
    | '-' :: rest => (-1, rest)
    | '+' :: rest => (1, rest)
    | rest => (1, rest)
  let ds := signAndRest.2.takeWhile (fun c => c.isDigit)
  if ds.isEmpty then none
  else some (signAndRest.1 * (digitsVal ds : Int))

/-- `Number(string)` restricted to finite results: trimmed empty string
is 0; a full decimal literal (sign, digits, fraction, exponent) parses
exactly; anything else (including `Infinity` and unmodelled radix
prefixes) is treated as not a finite number. -/
def jsStrToNumber (s : String) : Option Rat :=
  let t := s.trim
  if t = "" then some 0
  else
    let cs := t.data
    let signAndRest : Rat × List Char :=
      match cs with
      | '-' :: rest => (-1, rest)
      | '+' :: rest => (1, rest)
      | rest => (1, rest)
    let intDs := signAndRest.2.takeWhile (fun c => c.isDigit)
    let afterInt := signAndRest.2.drop intDs.length
    let fracAndRest : List Char × List Char :=
      match afterInt with
      | '.' :: rest => (rest.takeWhile (fun c => c.isDigit), rest.drop (rest.takeWhile (fun c => c.isDigit)).length)
      | rest => ([], rest)
    if intDs.isEmpty ∧ fracAndRest.1.isEmpty then none
    else
      let mantissa : Rat :=
        (digitsVal intDs : Rat) + (digitsVal fracAndRest.1 : Rat) / ((10 : Rat) ^ fracAndRest.1.length)
      let expAndRest : Option (Int × List Char) :=
        match fracAndRest.2 with
        | 'e' :: rest | 'E' :: rest =>
          match rest with
          | '-' :: rest2 =>
            let eds := rest2.takeWhile (fun c => c.isDigit)
            if eds.isEmpty then none else some (-(digitsVal eds : Int), rest2.drop eds.length)
          | '+' :: rest2 =>
            let eds := rest2.takeWhile (fun c => c.isDigit)
            if eds.isEmpty then none else some ((digitsVal eds : Int), rest2.drop eds.length)
          | rest2 =>
            let eds := rest2.takeWhile (fun c => c.isDigit)
            if eds.isEmpty then none else some ((digitsVal eds : Int), rest2.drop eds.length)
        | rest => some (0, rest)
      match expAndRest with
      | none => none
      | some (e, leftover) =>
        if leftover.isEmpty then some (signAndRest.1 * mantissa * (10 : Rat) ^ e)
        else none

/-- `Number(v)` restricted to finite results (`none` means NaN or an
infinity, exactly what `Number.isFinite` rejects). -/
def jsToNumber : JVal → Option Rat
  | .null => some 0
  | .undefined => none
  | .bool b => some (cond b 1 0)
  | .num q => some q
  | .str s => jsStrToNumber s
  | .arr [] => some 0
  | .arr [x] =>
    jsStrToNumber (match x with | .null => "" | .undefined => "" | other => jsToStr other)
  | .arr _ => none
  | .obj _ => none

/-- `seededRandom(seed)`: `sin` abstracts `Math.sin` (a pure real-valued
primitive); the surrounding arithmetic is exact. -/
def seededRandom (sin : Rat → Rat) (seed : Rat) : Rat :=
  let x := sin seed * 10000
  x - (⌊x⌋ : Rat)

/-- A simulated error directive result. -/
structure SimError where
  status : JVal
  message : JVal
deriving Repr

/-- The `directive` local of `getSimulatedError`:
`headerValue ?? body?.simulate_error`. -/
def effectiveDirective (xErrorHeader body : JVal) : JVal :=
  let headerValue := normalizeHeaderValue xErrorHeader
  let simulateValue := jsGet body "simulate_error"
  if jsNullish headerValue then simulateValue else headerValue

/-- `getSimulatedError(req, config, body)`: `xErrorHeader` is
`req.headers['x-error']`, `errorRate` is `config.errorRate`, `sin`
abstracts `Math.sin`. -/
def getSimulatedError (sin : Rat → Rat) (errorRate : Rat) (xErrorHeader : JVal)
    (body : JVal) : Option SimError :=
  let directive := effectiveDirective xErrorHeader body
  if !(jsNullish directive || jsIsEmptyStr directive) then
    if jsTypeofIsObject directive then
      some ⟨jsOr (jsGet directive "status") (.num 400),
            jsOr (jsGet directive "message") (.str "Simulated error")⟩
    else
      let parsed := jsParseIntPrefix (jsToStr directive)
      let status : JVal :=
        match parsed with
        | some n => if n = 0 then .num 400 else .num (n : Rat)
        | none => .num 400
      some ⟨status, .str ("Simulated error (" ++ jsToStr directive ++ ")")⟩
  else
    if errorRate > 0 ∧ !(jsIsUndefined (jsGet body "seed")) then
      match jsToNumber (jsGet body "seed") with
      | some seed =>
        if seededRandom sin seed < errorRate then
          some ⟨.num 500, .str "Simulated error"⟩
        else none
      | none => none
    else none

/-! ## Accessors and concrete example configurations used in theorems -/

/-- Project the chunk data of a stream event. -/
def eventChunk : ChatStreamEvent → Option ChatChunkData
  | .chunk d => some d
  | .done => none

/-- True when the event's data has no `usage` field. -/
def eventUsageAbsent : ChatStreamEvent → Bool
  | .chunk d => d.usage.isNone
  | .done => true

/-- The inheritance config of the unit test, with a default added on the
child: `base` answers "hello" exactly, `child` inherits from `base` and
has its own default. -/
def cfgInherit : JVal := .obj [
  ("base", .arr [.obj [("hello", .str "hi from base")]]),
  ("child", .arr [.obj [("_inherit", .str "base")], .obj [("_default", .str "child default")]])]

/-- A cyclic inheritance chain: `A` inherits from `B`, `B` from `A`;
`B` carries the only default. -/
def cfgCyclic : JVal := .obj [
  ("A", .arr [.obj [("_inherit", .str "B")]]),
  ("B", .arr [.obj [("_inherit", .str "A")], .obj [("_default", .str "fb")]])]

/-- `Parent` is both referenced via `_inherit` and independently defined
as a trigger model. -/
def cfgBothBaseAndDefined : JVal := .obj [
  ("Parent", .arr [.obj [("hello", .str "hi")]]),
  ("Child", .arr [.obj [("_inherit", .str "Parent")]])]

/-- A canonical response with plain text content. -/
def respHello : CanonicalResponse :=
  ⟨some "hello", none, none, ⟨some 5, some 5, none, none, none⟩⟩

/-- A parse state in which both sentinels have already taken effect. -/
def stBoth : ParseSt := ⟨[], some (.str "x"), some "A", []⟩

/-! ## Lemmas and claim theorems -/

lemma except_bind_ok {ε α β : Type} (a : α) (f : α → Except ε β) :
    (Except.ok a >>= f : Except ε β) = f a := rfl

lemma except_bind_ok2 {ε α β : Type} (a : α) (f : α → Except ε β) :
    Except.bind (Except.ok a) f = f a := rfl

lemma except_pure_eq {ε α : Type} (a : α) : (pure a : Except ε α) = Except.ok a := rfl

lemma parseStepE_ok (st : ParseSt) (item : JVal) :
    parseStepE st item = Except.ok (parseStep st item) := by
  cases item <;>
    simp only [parseStepE, parseStep, jsInE, jsGetE, jsKeysE, jsTruthy, jsTypeofIsObject,
      Bool.and_false, Bool.and_true, Bool.true_and, Bool.false_and, Bool.not_false,
      Bool.not_true, if_true, if_false, except_bind_ok, except_bind_ok2, except_pure_eq] <;>
    (try rfl) <;>
    (repeat' split) <;>
    rfl

lemma foldlM_parseStepE_ok (l : List JVal) (st : ParseSt) :
    l.foldlM parseStepE st = Except.ok (l.foldl parseStep st) := by
  induction l generalizing st with
  | nil => rfl
  | cons x xs ih =>
    simp only [List.foldlM, List.foldl, parseStepE_ok, except_bind_ok, except_bind_ok2]
    exact ih (parseStep st x)

lemma parseTriggerListE_ok (v : JVal) (bases : List String) :
    parseTriggerListE v bases = Except.ok (parseTriggerList v bases) := by
  simp only [parseTriggerListE, parseTriggerList, foldlM_parseStepE_ok, except_bind_ok,
    except_bind_ok2]
  rfl

lemma normStepE_ok (st : ModelRegistry) (kv : String × JVal) :
    normStepE st kv = Except.ok (normStep st kv) := by
  obtain ⟨name, v⟩ := kv
  cases v <;>
    simp only [normStepE, normStep, parseTriggerListE_ok, jsInE, jsGetE, jsIsArray,
      jsIsString, jsTruthy, jsTypeofIsObject, Bool.and_false, Bool.and_true, Bool.true_and,
      Bool.false_and, Bool.not_false, Bool.not_true, if_true, if_false,
      except_bind_ok, except_bind_ok2, except_pure_eq] <;>
    (try rfl) <;>
    (repeat' split) <;>
    rfl

lemma foldlM_normStepE_ok (l : List (String × JVal)) (st : ModelRegistry) :
    l.foldlM normStepE st = Except.ok (l.foldl normStep st) := by
  induction l generalizing st with
  | nil => rfl
  | cons x xs ih =>
    simp only [List.foldlM, List.foldl, normStepE_ok, except_bind_ok, except_bind_ok2]
    exact ih (normStep st x)

/-- C9: `normalizeModels` is pure and total: on every input value the
exception-aware embedding (in which the throwing JS primitives are
explicit) returns `ok` of the pure result and never raises. -/
theorem c9_normalizeModels_total_never_throws (v : JVal) :
    normalizeModelsE v = Except.ok (normalizeModels v) := by
  cases v <;>
    simp only [normalizeModelsE, normalizeModels, jsEntriesE, foldlM_normStepE_ok,
      jsTruthy, jsTypeofIsObject, Bool.and_false, Bool.and_true, Bool.true_and,
      Bool.false_and, Bool.not_false, Bool.not_true, if_true, if_false,
      except_bind_ok, except_bind_ok2, except_pure_eq] <;>
    (try rfl) <;>
    (repeat' split) <;>
    rfl

/-- C5: each provider usage mapping emits an optional detail field exactly
when the corresponding optional canonical field is present, and omits it
when absent. -/
theorem c5_usage_optional_fields_roundtrip (u : Usage) :
    ((mapUsageToOpenAIChat u).prompt_tokens_details = u.cache_read.map (fun c => ⟨c⟩)) ∧
    ((mapUsageToOpenAIChat u).completion_tokens_details = u.reasoning.map (fun r => ⟨r⟩)) ∧
    ((mapUsageToOpenAIResponses u).input_tokens_details = u.cache_read.map (fun c => ⟨c⟩)) ∧
    ((mapUsageToOpenAIResponses u).output_tokens_details = u.reasoning.map (fun r => ⟨r⟩)) ∧
    ((mapUsageToAnthropic u).cache_read_input_tokens = u.cache_read) ∧
    ((mapUsageToAnthropic u).cache_creation_input_tokens = u.cache_creation) ∧
    ((mapUsageToGemini u).cachedContentTokenCount = u.cache_read) ∧
    (u.reasoning = none → u.cache_read = none → u.cache_creation = none →
      (mapUsageToOpenAIChat u).prompt_tokens_details = none ∧
      (mapUsageToOpenAIChat u).completion_tokens_details = none ∧
      (mapUsageToOpenAIResponses u).input_tokens_details = none ∧
      (mapUsageToOpenAIResponses u).output_tokens_details = none ∧
      (mapUsageToAnthropic u).cache_read_input_tokens = none ∧
      (mapUsageToAnthropic u).cache_creation_input_tokens = none ∧
      (mapUsageToGemini u).cachedContentTokenCount = none) := by
  refine ⟨rfl, rfl, rfl, rfl, rfl, rfl, rfl, ?_⟩
  intro hr hcr hcc
  simp [mapUsageToOpenAIChat, mapUsageToOpenAIResponses, mapUsageToAnthropic,
    mapUsageToGemini, hr, hcr, hcc]

/-- C5 witness: a usage record with only `input`/`output` set maps with
every optional detail field absent. -/
theorem c5_witness :
    (mapUsageToOpenAIChat ⟨some 2, some 3, none, none, none⟩).prompt_tokens_details = none ∧
    (mapUsageToOpenAIChat ⟨some 2, some 3, none, none, none⟩).completion_tokens_details = none ∧
    (mapUsageToOpenAIResponses ⟨some 2, some 3, none, none, none⟩).input_tokens_details = none ∧
    (mapUsageToOpenAIResponses ⟨some 2, some 3, none, none, none⟩).output_tokens_details = none ∧
    (mapUsageToAnthropic ⟨some 2, some 3, none, none, none⟩).cache_read_input_tokens = none ∧
    (mapUsageToAnthropic ⟨some 2, some 3, none, none, none⟩).cache_creation_input_tokens = none ∧
    (mapUsageToGemini ⟨some 2, some 3, none, none, none⟩).cachedContentTokenCount = none :=
  (c5_usage_optional_fields_roundtrip ⟨some 2, some 3, none, none, none⟩).2.2.2.2.2.2.2
    rfl rfl rfl

/-- C7 counterexample: under the `words` strategy with content `"a"` and
reasoning `"b"`, the code computes output 2 (sum of the two counts) while
the token count of the concatenation `"ab"` is 1, so the claim's reading
("token count of content and reasoning concatenated") fails. -/
theorem c7_counterexample :
    (buildUsage ⟨some "a", some "b"⟩ (some "x") none .words).output = some 2 ∧
    countTokens (some ("a" ++ "b")) .words = 1 := by
  exact ⟨rfl, rfl⟩

/-- C7 amended: `output` equals the sum of the token counts of
`response.content` and `response.reasoning` computed separately, unless
`overrides.output` is set, in which case it equals the override. -/
theorem c7_output_sum_of_counts (r : ResponseDraft) (it : Option String)
    (ov : Option UsageOverrides) (s : Strategy) :
    (ov.bind (fun o => o.output) = none →
      (buildUsage r it ov s).output =
        some ((countTokens r.content s + countTokens r.reasoning s : Nat) : Int)) ∧
    (∀ o, ov.bind (fun o => o.output) = some o → (buildUsage r it ov s).output = some o) := by
  constructor
  · intro h
    simp [buildUsage, combineTokens, h]
  · intro o h
    simp [buildUsage, combineTokens, h]

/-- C7 witness: with no override the output is the sum of the two counts;
with an override it is the override. -/
theorem c7_witness :
    (buildUsage ⟨some "ab", some "cd"⟩ (some "in") none .chars).output = some 4 ∧
    (buildUsage ⟨some "ab", none⟩ (some "in")
      (some ⟨none, some 999999, none, none, none⟩) .chars).output = some 999999 :=
  ⟨(c7_output_sum_of_counts ⟨some "ab", some "cd"⟩ (some "in") none .chars).1 rfl,
   (c7_output_sum_of_counts ⟨some "ab", none⟩ (some "in")
      (some ⟨none, some 999999, none, none, none⟩) .chars).2 999999 rfl⟩

lemma parseStep_parent_mono (st : ParseSt) (item : JVal) (p : String)
    (h : st.parent = some p) : (parseStep st item).parent = some p := by
  simp only [parseStep]
  split
  · exact h
  split
  · rename_i hc
    rw [Bool.and_eq_true, h] at hc
    simp at hc
  split
  · exact h
  split <;> exact h

lemma parseStep_default_mono (st : ParseSt) (item : JVal) (d : JVal)
    (h : st.defaultEntry = some d) : (parseStep st item).defaultEntry = some d := by
  simp only [parseStep]
  split
  · exact h
  split
  · split <;> first | (split <;> exact h) | exact h
  split
  · rename_i hc
    rw [Bool.and_eq_true, h] at hc
    simp at hc
  split <;> exact h

lemma foldl_parseStep_parent_mono (l : List JVal) (st : ParseSt) (p : String)
    (h : st.parent = some p) : (l.foldl parseStep st).parent = some p := by
  induction l generalizing st with
  | nil => exact h
  | cons x xs ih => exact ih (parseStep st x) (parseStep_parent_mono st x p h)

lemma foldl_parseStep_default_mono (l : List JVal) (st : ParseSt) (d : JVal)
    (h : st.defaultEntry = some d) : (l.foldl parseStep st).defaultEntry = some d := by
  induction l generalizing st with
  | nil => exact h
  | cons x xs ih => exact ih (parseStep st x) (parseStep_default_mono st x d h)

/-- C4 counterexample: in a raw list with duplicated `_inherit` and
`_default` items, the later duplicates are not ignored: each becomes a
trigger entry whose match is the literal sentinel string. -/
theorem c4_counterexample :
    (parseTriggerList (.arr [.obj [("_inherit", .str "A")], .obj [("_inherit", .str "B")],
        .obj [("_default", .str "x")], .obj [("_default", .str "y")]]) []).1.entries
      = [("_inherit", JVal.str "B"), ("_default", JVal.str "y")] := rfl

/-- C4 amended: `_inherit` and `_default` each take effect at most once
(once set, later items never change them), but a later single-key item
carrying the sentinel becomes an ordinary trigger entry whose match is
the literal sentinel string instead of being ignored. -/
theorem c4_sentinels_first_wins_later_become_entries (st : ParseSt) (l : List JVal)
    (p : String) (d v : JVal) :
    (st.parent = some p → (l.foldl parseStep st).parent = some p) ∧
    (st.defaultEntry = some d → (l.foldl parseStep st).defaultEntry = some d) ∧
    (st.parent.isSome = true →
      parseStep st (.obj [("_inherit", v)])
        = { st with entries := st.entries ++ [("_inherit", v)] }) ∧
    (st.defaultEntry.isSome = true →
      parseStep st (.obj [("_default", v)])
        = { st with entries := st.entries ++ [("_default", v)] }) := by
  refine ⟨foldl_parseStep_parent_mono l st p, foldl_parseStep_default_mono l st d, ?_, ?_⟩
  · intro h
    obtain ⟨e, de, pa, ba⟩ := st
    cases pa with
    | none => simp at h
    | some q => rfl
  · intro h
    obtain ⟨e, de, pa, ba⟩ := st
    cases de with
    | none => simp at h
    | some q => cases pa <;> rfl

/-- C4 witness: with both sentinels already recorded, a later `_inherit`
item leaves the parent unchanged and a later `_default` single-key item
becomes a literal trigger entry. -/
theorem c4_witness :
    (([JVal.obj [("_inherit", JVal.str "B")]].foldl parseStep stBoth).parent = some "A") ∧
    (parseStep stBoth (.obj [("_default", JVal.str "y")])
      = { stBoth with entries := [("_default", JVal.str "y")] }) :=
  ⟨(c4_sentinels_first_wins_later_become_entries stBoth [JVal.obj [("_inherit", JVal.str "B")]]
      "A" (JVal.str "x") (JVal.str "y")).1 rfl,
   (c4_sentinels_first_wins_later_become_entries stBoth []
      "A" (JVal.str "x") (JVal.str "y")).2.2.2 rfl⟩

/-- C6 counterexample: `Parent` is referenced as an inheritance parent and
also independently defined as a trigger model, yet the public listing
excludes it. -/
theorem c6_counterexample :
    "Parent" ∈ (normalizeModels cfgBothBaseAndDefined).triggerModels.map Prod.fst ∧
    "Parent" ∈ (normalizeModels cfgBothBaseAndDefined).baseModels ∧
    listModelNames (normalizeModels cfgBothBaseAndDefined) = ["Child"] := by
  refine ⟨by decide, by decide, by decide⟩

/-- C6 amended: with the default `excludeBaseModels = true`, every name
recorded in `baseModels` is removed from the listing, even when it is
independently defined as a trigger or behavior model. -/
theorem c6_base_models_always_excluded (reg : ModelRegistry) (b : String)
    (hb : b ∈ reg.baseModels) : b ∉ listModelNames reg := by
  intro hmem
  simp [listModelNames, List.mem_filter] at hmem
  exact hmem.2 hb

/-- C6 witness: the amended exclusion at the concrete registry. -/
theorem c6_witness : "Parent" ∉ listModelNames (normalizeModels cfgBothBaseAndDefined) :=
  c6_base_models_always_excluded (normalizeModels cfgBothBaseAndDefined) "Parent" (by decide)

/-- C3 counterexample: for a plain text response the stream has only
three events and the first chunk's delta carries the assistant role and
the content together — there is no role-only chunk followed by a
separate content chunk. -/
theorem c3_counterexample :
    (buildOpenAIChatStreamEvents respHello "m" false "id0" 0 (fun _ => "tid")).length = 3 ∧
    (buildOpenAIChatStreamEvents respHello "m" false "id0" 0 (fun _ => "tid")).head? =
      some (.chunk ⟨"id0", "chat.completion.chunk", 0, "m",
        [⟨0, ⟨some "assistant", some "hello", none, none⟩, none⟩], none⟩) := by
  exact ⟨rfl, rfl⟩

/-- C3 amended: the OpenAI chat stream is, in order: one chunk whose
delta carries the assistant role together with the content/reasoning/
tool-call payload, then a chunk with empty delta and finish_reason
"stop", then (only if usage was requested) a chunk with empty choices
and the full usage object, then the literal "[DONE]" sentinel. -/
theorem c3_stream_event_order (r : CanonicalResponse) (model : String)
    (includeUsage : Bool) (id : String) (created : Int) (gen : Nat → String) :
    (buildOpenAIChatStreamEvents r model includeUsage id created gen).length
      = (if includeUsage then 4 else 3) ∧
    (buildOpenAIChatStreamEvents r model includeUsage id created gen).getLast?
      = some .done ∧
    (buildOpenAIChatStreamEvents r model includeUsage id created gen).head?
      = some (.chunk ⟨id, "chat.completion.chunk", created, model,
          [⟨0, ⟨some "assistant",
                (if jsTruthyOS r.content then r.content else none),
                (if jsTruthyOS r.reasoning then r.reasoning else none),
                r.tool_calls.map (toOpenAIToolCalls gen)⟩, none⟩], none⟩) ∧
    (buildOpenAIChatStreamEvents r model includeUsage id created gen).get? 1
      = some (.chunk ⟨id, "chat.completion.chunk", created, model,
          [⟨0, emptyDelta, some "stop"⟩], none⟩) ∧
    (includeUsage = true →
      (buildOpenAIChatStreamEvents r model includeUsage id created gen).get? 2
        = some (.chunk ⟨id, "chat.completion.chunk", created, model, [],
            some (mapUsageToOpenAIChat r.usage)⟩)) := by
  cases includeUsage with
  | false =>
    refine ⟨rfl, rfl, rfl, rfl, ?_⟩
    intro h
    exact absurd h (by decide)
  | true => exact ⟨rfl, rfl, rfl, rfl, fun _ => rfl⟩

/-- C3 witness: the usage chunk of the amended ordering at a concrete
response when usage is requested. -/
theorem c3_witness :
    (buildOpenAIChatStreamEvents respHello "m" true "id0" 0 (fun _ => "tid")).get? 2
      = some (.chunk ⟨"id0", "chat.completion.chunk", 0, "m", [],
          some (mapUsageToOpenAIChat respHello.usage)⟩) :=
  (c3_stream_event_order respHello "m" true "id0" 0 (fun _ => "tid")).2.2.2.2 rfl

/-- C8: with includeUsage = false the OpenAI chat stream contains no
event carrying a usage field, and the final event is still the "[DONE]"
sentinel. -/
theorem c8_no_usage_without_include_usage (r : CanonicalResponse) (model : String)
    (id : String) (created : Int) (gen : Nat → String) :
    ((buildOpenAIChatStreamEvents r model false id created gen).all eventUsageAbsent = true) ∧
    (buildOpenAIChatStreamEvents r model false id created gen).getLast? = some .done := by
  exact ⟨rfl, rfl⟩

/-- C10: with no explicit error directive, the seeded random error
injection never fires without a `seed` in the body, never fires when the
seed is not a finite number, and otherwise is the deterministic
comparison of the seeded pseudo-random value against the error rate. -/
theorem c10_seeded_error_injection (sin : Rat → Rat) (errorRate : Rat) (h body : JVal)
    (hdir : (jsNullish (effectiveDirective h body)
              || jsIsEmptyStr (effectiveDirective h body)) = true) :
    (jsGet body "seed" = JVal.undefined → getSimulatedError sin errorRate h body = none) ∧
    (jsToNumber (jsGet body "seed") = none → getSimulatedError sin errorRate h body = none) ∧
    (∀ q, jsToNumber (jsGet body "seed") = some q →
      getSimulatedError sin errorRate h body =
        (if errorRate > 0 ∧ seededRandom sin q < errorRate
         then some ⟨.num 500, .str "Simulated error"⟩ else none)) := by
  have core : getSimulatedError sin errorRate h body =
      (if errorRate > 0 ∧ !(jsIsUndefined (jsGet body "seed")) then
        match jsToNumber (jsGet body "seed") with
        | some seed =>
          if seededRandom sin seed < errorRate then
            some ⟨.num 500, .str "Simulated error"⟩
          else none
        | none => none
      else none) := by
    simp only [getSimulatedError, hdir, Bool.not_true, Bool.false_eq_true, if_false]
  refine ⟨?_, ?_, ?_⟩
  · intro hu
    rw [core, hu]
    simp [jsIsUndefined]
  · intro hn
    rw [core, hn]
    split <;> rfl
  · intro q hq
    have hne : jsIsUndefined (jsGet body "seed") = false := by
      cases hv : jsGet body "seed" <;> rw [hv] at hq <;> first | rfl | (simp [jsToNumber] at hq)
    rw [core, hq, hne]
    by_cases her : errorRate > 0
    · by_cases hlt : seededRandom sin q < errorRate
      · simp [her, hlt]
      · simp [her, hlt]
    · simp [her]

/-- C10 witness: a body without a seed is never randomly failed even at a
positive error rate. -/
theorem c10_witness :
    getSimulatedError (fun _ => 0) (1/2) JVal.undefined (JVal.obj [("model", JVal.str "gpt")])
      = none :=
  (c10_seeded_error_injection (fun _ => 0) (1/2) JVal.undefined
    (JVal.obj [("model", JVal.str "gpt")]) rfl).1 rfl

lemma mapGet_mem_keys {α : Type} {m : List (String × α)} {k : String} {v : α}
    (h : mapGet m k = some v) : k ∈ m.map Prod.fst := by
  induction m with
  | nil => simp [mapGet] at h
  | cons p t ih =>
    by_cases hb : p.1 = k
    · simp [hb]
    · rw [mapGet, List.find?_cons_of_neg] at h
      · exact List.mem_cons_of_mem _ (ih h)
      · simpa using hb

lemma length_filter_le_of_imp {α : Type} (l : List α) (p q : α → Bool)
    (himp : ∀ a, p a = true → q a = true) :
    (l.filter p).length ≤ (l.filter q).length := by
  induction l with
  | nil => simp
  | cons a t ih =>
    cases hpa : p a with
    | true =>
      have hqa := himp a hpa
      simp [List.filter_cons, hpa, hqa]
      omega
    | false =>
      cases hqa : q a with
      | true => simp [List.filter_cons, hpa, hqa]; omega
      | false => simp [List.filter_cons, hpa, hqa]; omega

lemma length_filter_lt_of_mem {α : Type} (l : List α) (p q : α → Bool) (x : α)
    (hx : x ∈ l) (hpx : p x = false) (hqx : q x = true)
    (himp : ∀ a, p a = true → q a = true) :
    (l.filter p).length < (l.filter q).length := by
  induction l with
  | nil => cases hx
  | cons a t ih =>
    rcases List.mem_cons.mp hx with rfl | hxt
    · simp [List.filter_cons, hpx, hqx]
      have := length_filter_le_of_imp t p q himp
      omega
    · cases hpa : p a with
      | true =>
        have hqa := himp a hpa
        simp [List.filter_cons, hpa, hqa]
        have := ih hxt
        omega
      | false =>
        cases hqa : q a with
        | true =>
          simp [List.filter_cons, hpa, hqa]
          have := ih hxt
          omega
        | false =>
          simp [List.filter_cons, hpa, hqa]
          exact ih hxt

lemma unvisitedCount_cons_lt (reg : ModelRegistry) (name : String) (visited : List String)
    (hmem : name ∈ reg.triggerModels.map Prod.fst) (hnv : name ∉ visited) :
    unvisitedCount reg (name :: visited) < unvisitedCount reg visited := by
  apply length_filter_lt_of_mem _ _ _ name hmem
  · simp
  · simpa using hnv
  · intro a ha
    simp at ha ⊢
    exact ha.2

lemma unvisitedCount_nil (reg : ModelRegistry) :
    unvisitedCount reg [] = reg.triggerModels.length := by
  simp [unvisitedCount]

lemma walkChainGo_length_le (reg : ModelRegistry) :
    ∀ (fuel : Nat) (current : Option String) (visited : List String),
    (walkChainGo reg fuel current visited).length ≤ unvisitedCount reg visited := by
  intro fuel
  induction fuel with
  | zero => intro c v; simp [walkChainGo]
  | succ n ih =>
    intro c v
    cases c with
    | none => simp [walkChainGo]
    | some name =>
      simp only [walkChainGo]
      split
      · simp
      · rename_i hcond
        cases hm : mapGet reg.triggerModels name with
        | none => simp
        | some model =>
          simp only [List.length_cons]
          have h1 := ih model.parent (name :: v)
          have hnv : name ∉ v := fun hv => hcond (Or.inr hv)
          have h2 := unvisitedCount_cons_lt reg name v (mapGet_mem_keys hm) hnv
          omega

lemma walkChainGo_fuel_add (reg : ModelRegistry) :
    ∀ (fuel k : Nat) (current : Option String) (visited : List String),
    unvisitedCount reg visited < fuel →
    walkChainGo reg (fuel + k) current visited = walkChainGo reg fuel current visited := by
  intro fuel
  induction fuel with
  | zero => intro k c v h; exact absurd h (Nat.not_lt_zero _)
  | succ n ih =>
    intro k c v h
    have heq : n + 1 + k = (n + k) + 1 := by omega
    rw [heq]
    cases c with
    | none => simp [walkChainGo]
    | some name =>
      simp only [walkChainGo]
      split
      · rfl
      · rename_i hcond
        cases hm : mapGet reg.triggerModels name with
        | none => simp
        | some model =>
          simp only []
          have hnv : name ∉ v := fun hv => hcond (Or.inr hv)
          have h2 := unvisitedCount_cons_lt reg name v (mapGet_mem_keys hm) hnv
          rw [ih k model.parent (name :: v) (by omega)]

lemma resolveTriggerGo_eq (reg : ModelRegistry) (msg : String) :
    ∀ (fuel : Nat) (current : Option String) (visited : List String)
      (fb : Option TriggerResult),
    resolveTriggerGo reg msg fuel current visited fb =
      (match firstExactInChain reg msg (walkChainGo reg fuel current visited) with
      | some me => some ⟨me.2, me.1, false⟩
      | none =>
        match fb with
        | some r => some r
        | none => firstDefaultInChain reg (walkChainGo reg fuel current visited)) := by
  intro fuel
  induction fuel with
  | zero =>
    intro c v fb
    cases fb <;> simp [resolveTriggerGo, walkChainGo, firstExactInChain, firstDefaultInChain]
  | succ n ih =>
    intro c v fb
    cases c with
    | none =>
      cases fb <;>
        simp [resolveTriggerGo, walkChainGo, firstExactInChain, firstDefaultInChain]
    | some name =>
      by_cases hcond : (name = "" ∨ name ∈ v)
      · simp only [resolveTriggerGo, walkChainGo, if_pos hcond]
        cases fb <;> simp [firstExactInChain, firstDefaultInChain]
      · simp only [resolveTriggerGo, walkChainGo, if_neg hcond]
        cases hm : mapGet reg.triggerModels name with
        | none =>
          simp only []
          cases fb <;> simp [firstExactInChain, firstDefaultInChain]
        | some model =>
          cases hf : model.entries.find? (fun e => e.1 == msg) with
          | some e =>
            simp [firstExactInChain, hm, hf]
          | none =>
            simp only []
            rw [ih]
            cases hfe : firstExactInChain reg msg
                (walkChainGo reg n model.parent (name :: v)) with
            | some me =>
              simp [firstExactInChain, hm, hf, hfe]
            | none =>
              cases fb with
              | some r =>
                simp [firstExactInChain, hm, hf, hfe]
              | none =>
                cases hd : model.defaultEntry with
                | some dv =>
                  simp [firstExactInChain, firstDefaultInChain, hm, hf, hfe, hd]
                | none =>
                  simp [firstExactInChain, firstDefaultInChain, hm, hf, hfe, hd]

lemma resolveTriggerResponse_spec (reg : ModelRegistry) (name msg : String) :
    resolveTriggerResponse name msg reg =
      (match firstExactInChain reg msg (walkChain reg name) with
      | some me => some ⟨me.2, me.1, false⟩
      | none => firstDefaultInChain reg (walkChain reg name)) := by
  rw [resolveTriggerResponse, resolveTriggerGo_eq]
  simp only [walkChain]

lemma firstExactInChain_eq_none_iff (reg : ModelRegistry) (msg : String) (l : List String) :
    firstExactInChain reg msg l = none ↔ ∀ m ∈ l, hasExactMatch reg m msg = false := by
  induction l with
  | nil => simp [firstExactInChain]
  | cons m t ih =>
    cases hm : mapGet reg.triggerModels m with
    | none =>
      simp [firstExactInChain, hm, ih, hasExactMatch]
    | some mo =>
      cases hf : mo.entries.find? (fun e => e.1 == msg) with
      | none =>
        have hany : mo.entries.any (fun e => e.1 == msg) = false := by
          rw [List.any_eq_false]
          intro e he
          have := List.find?_eq_none.mp hf e he
          simpa using this
        simp [firstExactInChain, hm, hf, ih, hasExactMatch, hany]
      | some e =>
        have hany : mo.entries.any (fun e => e.1 == msg) = true := by
          rw [List.any_eq_true]
          have hp := List.find?_some hf
          exact ⟨e, List.mem_of_find?_eq_some hf, by simpa using hp⟩
        simp [firstExactInChain, hm, hf, hasExactMatch, hany]

/-- C1: an exact trigger match at any model of the walked inheritance
chain wins over every recorded default: the resolver returns the first
exact match found along the chain, and returns a default only when no
walked model has an exact match for the message. -/
theorem c1_exact_match_beats_any_default (reg : ModelRegistry) (name msg : String) :
    (∀ m resp, firstExactInChain reg msg (walkChain reg name) = some (m, resp) →
      resolveTriggerResponse name msg reg = some ⟨resp, m, false⟩) ∧
    (∀ r, resolveTriggerResponse name msg reg = some r → r.isDefault = true →
      ∀ m ∈ walkChain reg name, hasExactMatch reg m msg = false) := by
  constructor
  · intro m resp h
    rw [resolveTriggerResponse_spec, h]
  · intro r hr hd
    rw [← firstExactInChain_eq_none_iff]
    cases hfe : firstExactInChain reg msg (walkChain reg name) with
    | none => rfl
    | some me =>
      rw [resolveTriggerResponse_spec, hfe] at hr
      cases hr
      simp at hd

/-- C1 witness: in the two-level chain `child → base` where only the
ancestor has an exact entry for "hello" and the child has its own
default, resolution returns the ancestor's exact match, not the child
default. -/
theorem c1_witness :
    resolveTriggerResponse "child" "hello" (normalizeModels cfgInherit)
      = some ⟨JVal.str "hi from base", "base", false⟩ :=
  (c1_exact_match_beats_any_default (normalizeModels cfgInherit) "child" "hello").1
    "base" (JVal.str "hi from base") rfl

/-- C2: the inheritance walk terminates on every registry, cyclic chains
included: it visits at most as many models as the registry holds, extra
fuel never changes the result, and when no walked model has an exact
match the result is the first recorded default along the walk (or `none`
when no walked model has one). -/
theorem c2_cycle_terminates_with_fallback (reg : ModelRegistry) (name msg : String) :
    (walkChain reg name).length ≤ reg.triggerModels.length ∧
    (∀ extra, resolveTriggerGo reg msg (triggerFuel reg + extra) (some name) [] none =
      resolveTriggerResponse name msg reg) ∧
    ((∀ m ∈ walkChain reg name, hasExactMatch reg m msg = false) →
      resolveTriggerResponse name msg reg = firstDefaultInChain reg (walkChain reg name)) := by
  refine ⟨?_, ?_, ?_⟩
  · have h := walkChainGo_length_le reg (triggerFuel reg) (some name) []
    rw [unvisitedCount_nil] at h
    exact h
  · intro extra
    rw [resolveTriggerResponse, resolveTriggerGo_eq, resolveTriggerGo_eq]
    have hw : walkChainGo reg (triggerFuel reg + extra) (some name) []
        = walkChainGo reg (triggerFuel reg) (some name) [] := by
      apply walkChainGo_fuel_add
      rw [unvisitedCount_nil]
      simp [triggerFuel]
    rw [hw]
  · intro hall
    rw [resolveTriggerResponse_spec,
      (firstExactInChain_eq_none_iff reg msg (walkChain reg name)).mpr hall]

/-- C2 witness: on the cyclic chain `A → B → A` with no matching entry,
resolution terminates and returns the first recorded fallback default
(the one on `B`). -/
theorem c2_witness :
    resolveTriggerResponse "A" "zzz" (normalizeModels cfgCyclic)
      = some ⟨JVal.str "fb", "B", true⟩ :=
  ((c2_cycle_terminates_with_fallback (normalizeModels cfgCyclic) "A" "zzz").2.2
    (by decide)).trans rfl

end LlmDebugger
